import Mathlib

/-!
Verification development for the sveltekit-sync repository.

The definitions below are a shallow embedding of the sync core:
- the server sync engine (src/pkg/server/sync-engine.ts: push, pull,
  checkAccess, resolveConflict, logOperation, updateClientState),
- the realtime server broadcast (src/pkg/realtime/server.ts),
- the realtime client reconnect logic (src/pkg/realtime/client.ts),
- the client conflict resolution pass (src/pkg/client/sync.svelte.ts).

JavaScript values are modelled as follows: wall-clock instants and version
numbers are Int (JS numbers; Date round-trips through getTime preserve the
millisecond value), row payloads are a record id plus an optional userId key
plus an association list of domain columns (a spread of the payload over a
row overwrites exactly the columns present in the payload), SQL NULL is
Option.none, and the database is an association list from physical table
name to the list of stored rows in storage order.
-/

/-- Kind of a sync operation, `op.operation` in the source. -/
inductive OpKind where
  | insert
  | update
  | delete
deriving DecidableEq

/-- The `op.data` payload: the record id, the userId column when the payload
carries one, and the remaining domain columns as key/value pairs. -/
structure Payload where
  id : String
  userId : Option String := none
  fields : List (String × String) := []
deriving DecidableEq

/-- A client operation (`SyncOperation` in src/pkg/types). -/
structure SyncOperation where
  id : String
  table : String
  operation : OpKind
  data : Payload
  timestamp : Int
  clientId : String
  version : Int
  status : String := "pending"
deriving DecidableEq

/-- A stored server row: domain columns plus the four sync metadata columns
(section 3.2 of the spec; the drizzle schema columns _version, _updatedAt,
_clientId, _isDeleted). -/
structure Row where
  id : String
  userId : String
  fields : List (String × String)
  _version : Int
  _updatedAt : Int
  _clientId : Option String
  _isDeleted : Bool
deriving DecidableEq

/-- Conflict record produced by push (src/pkg/server/sync-engine.ts). -/
structure Conflict where
  operation : SyncOperation
  serverData : Row
  clientData : Payload
deriving DecidableEq

/-- A per-operation error entry in the push result. -/
structure OpError where
  id : String
  error : String
deriving DecidableEq

/-- `SyncResult` returned by ServerSyncEngine.push. -/
structure SyncResult where
  success : Bool
  synced : List String
  conflicts : List Conflict
  errors : List OpError
deriving DecidableEq

/-- Conflict resolution strategies of the server schema
(`conflictResolution` in SyncTableConfig). -/
inductive Strategy where
  | clientWins
  | serverWins
  | lastWriteWins
deriving DecidableEq

/-- Per-table sync schema entry (SyncTableConfig in
src/pkg/server/sync-schema.ts). `whereClause` models the `where` filter: a
row-level predicate parameterised by the authenticated userId (the source
builds a SQL condition; we model the condition as the set of rows it
accepts). `transform` redacts a row before it leaves the server. -/
structure SyncTableConfig where
  table : String
  whereClause : Option (String → Row → Bool) := none
  transform : Option (Row → Payload) := none
  conflictResolution : Option Strategy := none

/-- Server sync configuration (SyncConfig): logical table name to table
config, plus the global pull batch size. -/
structure SyncConfig where
  tables : List (String × SyncTableConfig)
  batchSize : Option Nat := none

/-- One entry of the server sync log (logOperation writes these). -/
structure LogEntry where
  tableName : String
  recordId : String
  operation : OpKind
  data : Payload
  timestamp : Int
  clientId : String
  userId : String
deriving DecidableEq

/-- One row of the clientState table (updateClientState upserts these;
push passes `operations[0]?.clientId`, which is absent for an empty batch,
hence the Option). -/
structure ClientState where
  clientId : Option String
  userId : String
  lastSync : Int
  lastActive : Int
deriving DecidableEq

/-- The database tables: physical table name to stored rows. -/
abbrev StoreMap : Type := List (String × List Row)

/-- Full server-side state: the data tables, the sync log and the
clientState table. -/
structure ServerState where
  store : StoreMap
  log : List LogEntry
  clients : List ClientState
deriving DecidableEq

/-- Rows of one physical table: the first entry registered under the name,
empty when the store has none. -/
def tableRows : StoreMap → String → List Row
  | [], _ => []
  | p :: rest, t => if p.1 == t then p.2 else tableRows rest t

/-- First stored row with the given id, in storage order
(`select ... where eq(table.id, id) limit 1`). -/
def findRow (s : StoreMap) (t : String) (rid : String) : Option Row :=
  (tableRows s t).find? (fun r => r.id == rid)

/-- `insert into t values (row)`: append to the table, creating the table
entry when the store has none (the store holds one entry per table name). -/
def insertRow : StoreMap → String → Row → StoreMap
  | [], t, row => [(t, [row])]
  | p :: rest, t, row =>
      if p.1 == t then (p.1, p.2 ++ [row]) :: rest
      else p :: insertRow rest t row

/-- `update t set ... where eq(t.id, rid)`: map the setter over every row of
the addressed table whose id matches; a missing table or row leaves the
store as it is (an UPDATE matching zero rows). -/
def updateRows : StoreMap → String → String → (Row → Row) → StoreMap
  | [], _, _, _ => []
  | p :: rest, t, rid, f =>
      if p.1 == t then
        (p.1, p.2.map (fun r => if r.id == rid then f r else r)) :: rest
      else p :: updateRows rest t rid f

/-- ServerSyncEngine.checkAccess: with no `where` filter, allow. Otherwise
run `select id from table where id = op.data.id and where(userId) limit 1`
and allow when a row matched or the operation is an insert
(`result.length > 0 || op.operation === insert`). -/
def checkAccess (tc : SyncTableConfig) (userId : String) (s : StoreMap)
    (op : SyncOperation) : Bool :=
  match tc.whereClause with
  | none => true
  | some w =>
      ((tableRows s tc.table).any (fun r => r.id == op.data.id && w userId r))
        || (op.operation == OpKind.insert)

/-- Outcome of the conflict policy. -/
inductive Resolution where
  | conflict
  | resolved
deriving DecidableEq

/-- ServerSyncEngine.resolveConflict: strategy defaults to last-write-wins;
last-write-wins resolves exactly when the client timestamp is strictly
greater than the server row _updatedAt. -/
def resolveConflict (tc : SyncTableConfig) (clientOp : SyncOperation)
    (serverData : Row) : Resolution :=
  match tc.conflictResolution.getD Strategy.lastWriteWins with
  | Strategy.serverWins => Resolution.conflict
  | Strategy.clientWins => Resolution.resolved
  | Strategy.lastWriteWins =>
      if clientOp.timestamp > serverData._updatedAt then Resolution.resolved
      else Resolution.conflict

/-- Spreading a payload over stored columns: columns present in the payload
win, the others keep their stored value (JS object spread). -/
def mergeFields (data old : List (String × String)) : List (String × String) :=
  data ++ old.filter (fun kv => !(data.any (fun kv2 => kv2.1 == kv.1)))

/-- The sync log entry written by logOperation. -/
def logEntryOf (op : SyncOperation) (userId : String) : LogEntry :=
  { tableName := op.table, recordId := op.data.id, operation := op.operation,
    data := op.data, timestamp := op.timestamp, clientId := op.clientId,
    userId := userId }

/-- What processing one operation contributed to the push result. -/
inductive StepOutcome where
  | synced
  | conflicted (c : Conflict)
  | errored (e : OpError)
deriving DecidableEq

/-- The body of the per-operation loop of ServerSyncEngine.push: table gate,
access check, then dispatch on the operation kind, returning the new server
state together with what was appended to synced, conflicts or errors.
push folds this over the batch in input order. -/
def applyOp (cfg : SyncConfig) (userId : String) (st : ServerState)
    (op : SyncOperation) : ServerState × StepOutcome :=
  match (cfg.tables.find? (fun p => p.1 == op.table)).map (fun p => p.2) with
  | none =>
      (st, StepOutcome.errored
        ⟨op.id, "Table " ++ op.table ++ " not configured for sync"⟩)
  | some tc =>
      if !(checkAccess tc userId st.store op) then
        (st, StepOutcome.errored ⟨op.id, "Access denied"⟩)
      else
        match op.operation with
        | OpKind.insert =>
            match findRow st.store tc.table op.data.id with
            | some existing =>
                (st, StepOutcome.conflicted ⟨op, existing, op.data⟩)
            | none =>
                let row : Row :=
                  { id := op.data.id, userId := userId,
                    fields := op.data.fields,
                    _version := 1, _updatedAt := op.timestamp,
                    _clientId := some op.clientId, _isDeleted := false }
                ({ st with store := insertRow st.store tc.table row,
                           log := st.log ++ [logEntryOf op userId] },
                 StepOutcome.synced)
        | OpKind.update =>
            match findRow st.store tc.table op.data.id with
            | none => (st, StepOutcome.errored ⟨op.id, "Record not found"⟩)
            | some current =>
                if current._version ≠ op.version - 1
                    ∧ resolveConflict tc op current = Resolution.conflict then
                  (st, StepOutcome.conflicted ⟨op, current, op.data⟩)
                else
                  ({ st with
                     store := updateRows st.store tc.table op.data.id
                       (fun r =>
                         { r with
                           id := op.data.id,
                           userId := op.data.userId.getD r.userId,
                           fields := mergeFields op.data.fields r.fields,
                           _version := current._version + 1,
                           _updatedAt := op.timestamp,
                           _clientId := some op.clientId }),
                     log := st.log ++ [logEntryOf op userId] },
                   StepOutcome.synced)
        | OpKind.delete =>
            ({ st with
               store := updateRows st.store tc.table op.data.id
                 (fun r =>
                   { r with _isDeleted := true, _updatedAt := op.timestamp }),
               log := st.log ++ [logEntryOf op userId] },
             StepOutcome.synced)

/-- updateClientState: upsert the clientState row keyed by clientId, setting
lastSync and lastActive to the server clock. -/
def updateClientState (clients : List ClientState) (cid : Option String)
    (userId : String) (now : Int) : List ClientState :=
  if clients.any (fun c => c.clientId == cid) then
    clients.map (fun c =>
      if c.clientId == cid then { c with lastSync := now, lastActive := now }
      else c)
  else
    clients ++ [{ clientId := cid, userId := userId, lastSync := now,
                  lastActive := now }]

/-- Folding step of push: run applyOp and append its contribution to the
accumulated result. -/
def pushStep (cfg : SyncConfig) (userId : String)
    (acc : ServerState × SyncResult) (op : SyncOperation) :
    ServerState × SyncResult :=
  let out := applyOp cfg userId acc.1 op
  match out.2 with
  | StepOutcome.synced =>
      (out.1, { acc.2 with synced := acc.2.synced ++ [op.id] })
  | StepOutcome.conflicted c =>
      (out.1, { acc.2 with conflicts := acc.2.conflicts ++ [c] })
  | StepOutcome.errored e =>
      (out.1, { acc.2 with errors := acc.2.errors ++ [e] })

/-- ServerSyncEngine.push: process the batch in input order, update the
clientState row for `operations[0]?.clientId`, and return
`{ success: true, synced, conflicts, errors }`. `now` is the server clock
used by updateClientState. -/
def push (cfg : SyncConfig) (operations : List SyncOperation)
    (userId : String) (now : Int) (st : ServerState) :
    ServerState × SyncResult :=
  let folded := operations.foldl (pushStep cfg userId)
    (st, { success := true, synced := [], conflicts := [], errors := [] })
  ({ folded.1 with
     clients := updateClientState folded.1.clients
       (operations.head?.map (fun o => o.clientId)) userId now },
   folded.2)

/-- The pull client filter,
`sql(_clientId != clientId OR _clientId IS NULL)`: a row is kept when its
_clientId differs from the calling client or is NULL. -/
def clientFilter (clientId : String) (r : Row) : Bool :=
  match r._clientId with
  | none => true
  | some c => c != clientId

/-- The optional row-level security filter of pull
(`tableConfig.where ? tableConfig.where(userId) : undefined`; an undefined
condition is dropped from the conjunction). -/
def whereFilter (tc : SyncTableConfig) (userId : String) (r : Row) : Bool :=
  match tc.whereClause with
  | none => true
  | some w => w userId r

/-- The per-table pull limit, `this.config.batchSize || 100` (JS: a missing
or zero batchSize falls back to 100). -/
def effectiveLimit (batchSize : Option Nat) : Nat :=
  match batchSize with
  | none => 100
  | some n => if n == 0 then 100 else n

/-- The fallback `row._clientId || server-literal` (JS: NULL and the empty string are falsy, so both map to the string "server"). -/
def orServer (c : Option String) : String :=
  match c with
  | none => "server"
  | some s => if s == "" then "server" else s

/-- The rows of one table that satisfy the pull WHERE clause:
`_updatedAt > lastSync`, the client filter and the access filter. -/
def matchingRows (st : ServerState) (tc : SyncTableConfig) (lastSync : Int)
    (clientId userId : String) : List Row :=
  (tableRows st.store tc.table).filter
    (fun r => decide (lastSync < r._updatedAt) && clientFilter clientId r
      && whereFilter tc userId r)

/-- The operation pull builds from one returned row: delete when the row is
tombstoned, else update; data through the optional transform; timestamp and
version from the row metadata; clientId defaulted to "server". The source
assigns a fresh random UUID as the operation id; no claim depends on it, so
it is modelled as the empty string. -/
def mkPullOp (tableName : String) (tc : SyncTableConfig) (r : Row) :
    SyncOperation :=
  { id := "",
    table := tableName,
    operation := if r._isDeleted then OpKind.delete else OpKind.update,
    data := match tc.transform with
            | some f => f r
            | none => { id := r.id, userId := some r.userId,
                        fields := r.fields },
    timestamp := r._updatedAt,
    clientId := orServer r._clientId,
    version := r._version,
    status := "synced" }

/-- The pull contribution of one configured table: the matching rows up to
the batch limit, converted to operations. -/
def pullTable (st : ServerState) (cfg : SyncConfig) (lastSync : Int)
    (clientId userId : String) (entry : String × SyncTableConfig) :
    List SyncOperation :=
  ((matchingRows st entry.2 lastSync clientId userId).take
      (effectiveLimit cfg.batchSize)).map (mkPullOp entry.1 entry.2)

/-- Stable insertion of an operation into a timestamp-sorted list; used to
model `operations.sort((a, b) => a.timestamp - b.timestamp)`. -/
def insertByTimestamp (a : SyncOperation) :
    List SyncOperation → List SyncOperation
  | [] => [a]
  | b :: rest =>
      if a.timestamp < b.timestamp then a :: b :: rest
      else b :: insertByTimestamp a rest

/-- Sort operations ascending by timestamp (stable insertion sort). -/
def sortByTimestamp : List SyncOperation → List SyncOperation
  | [] => []
  | a :: rest => insertByTimestamp a (sortByTimestamp rest)

/-- ServerSyncEngine.pull: gather every configured table, sort the merged
operations by timestamp, and upsert the clientState row. `now` is the
server clock used by updateClientState. -/
def pull (st : ServerState) (cfg : SyncConfig) (lastSync : Int)
    (clientId userId : String) (now : Int) :
    ServerState × List SyncOperation :=
  let ops := (cfg.tables.map (pullTable st cfg lastSync clientId userId)).flatten
  let clients2 := updateClientState st.clients (some clientId) userId now
  ({ st with clients := clients2 }, sortByTimestamp ops)

/-- A registered realtime connection (RealtimeConnection in
src/pkg/realtime/types). The stream controller is not modelled; an emitted
event is instead recorded in the broadcast result. -/
structure RealtimeConnection where
  id : String
  userId : String
  clientId : String
  tables : List String
  createdAt : Int
  lastActivity : Int
deriving DecidableEq

/-- Payload of an `operations` SSE event:
`{ operations: relevantOps, tables }`. -/
structure OperationsEventData where
  operations : List SyncOperation
  tables : List String
deriving DecidableEq

/-- `[...new Set(xs)]`: deduplicate keeping the first occurrence. -/
def dedupFirst (l : List String) : List String :=
  l.foldl (fun acc t => if acc.contains t then acc else acc ++ [t]) []

/-- The body of the per-connection loop of RealtimeServer.broadcast: skip
the connection whose clientId equals the (truthy) excludeClientId; filter
the batch to the tables of the subscription (an empty subscription means
all tables); skip when the filtered batch is empty; otherwise emit one
`operations` event carrying the filtered batch together with `tables`, the
precomputed distinct table names of the WHOLE input batch. -/
def emitFor (operations : List SyncOperation) (tables : List String)
    (excludeClientId : Option String) (c : RealtimeConnection) :
    Option (String × OperationsEventData) :=
  if (match excludeClientId with
      | some e => e != "" && c.clientId == e
      | none => false) then
    none
  else
    let relevantOps :=
      if c.tables.isEmpty then operations
      else operations.filter (fun op => c.tables.contains op.table)
    if relevantOps.isEmpty then none
    else some (c.id, { operations := relevantOps, tables := tables })

/-- RealtimeServer.broadcast. Disabled server or empty batch: no events.
Otherwise compute the distinct table names of the batch once, then run the
per-connection loop over the registered connections in order. The result
lists, per receiving connection id, the emitted event payload. -/
def broadcast (enabled : Bool) (connections : List RealtimeConnection)
    (operations : List SyncOperation) (excludeClientId : Option String) :
    List (String × OperationsEventData) :=
  if !enabled || operations.isEmpty then []
  else
    let tables := dedupFirst (operations.map (fun op => op.table))
    connections.filterMap (emitFor operations tables excludeClientId)

/-- Realtime client connection status. -/
inductive RCStatus where
  | disconnected
  | connecting
  | connected
  | fallback
deriving DecidableEq

/-- What RealtimeClient.handleError does after tearing the stream down:
either arm the reconnect timer with a delay, or give up and fall back to
polling. -/
inductive RCAction where
  | scheduleReconnect (delay : Nat)
  | fallbackToPolling
deriving DecidableEq

/-- The reconnect-related configuration of the realtime client. -/
structure RCConfig where
  reconnectInterval : Nat
  maxReconnectInterval : Nat
  maxReconnectAttempts : Nat
deriving DecidableEq

/-- The reconnect-related state of the realtime client. -/
structure RCState where
  reconnectAttempts : Nat
  status : RCStatus
  hasReconnectTimer : Bool
deriving DecidableEq

/-- The backoff delay computed by RealtimeClient.scheduleReconnect:
`Math.min(reconnectInterval * Math.pow(2, reconnectAttempts),
maxReconnectInterval)`. -/
def reconnectDelay (cfg : RCConfig) (attempts : Nat) : Nat :=
  min (cfg.reconnectInterval * 2 ^ attempts) cfg.maxReconnectInterval

/-- RealtimeClient.handleError on a failed connection: clear timers and
close the stream, then, while reconnectAttempts < maxReconnectAttempts,
schedule a reconnect with the exponential backoff delay, increment the
counter and set status connecting (scheduleReconnect); once the budget is
exhausted, set status fallback without arming any timer. -/
def handleError (cfg : RCConfig) (st : RCState) : RCState × RCAction :=
  if st.reconnectAttempts < cfg.maxReconnectAttempts then
    ({ reconnectAttempts := st.reconnectAttempts + 1,
       status := RCStatus.connecting, hasReconnectTimer := true },
     RCAction.scheduleReconnect (reconnectDelay cfg st.reconnectAttempts))
  else
    ({ st with status := RCStatus.fallback, hasReconnectTimer := false },
     RCAction.fallbackToPolling)

/-- Run `n` successive connection failures through handleError, collecting
the resulting actions in order. -/
def runFailures (cfg : RCConfig) (st : RCState) :
    Nat → RCState × List RCAction
  | 0 => (st, [])
  | n + 1 =>
      let step := handleError cfg st
      let rest := runFailures cfg step.1 n
      (rest.1, step.2 :: rest.2)

/-- A row payload on the client side: the record id, the _updatedAt key when
the JSON carries one (used by the client last-write-wins comparison
`serverData._updatedAt || 0`), and the remaining fields. -/
structure CPayload where
  id : String
  updatedAt : Option Int := none
  fields : List (String × String) := []
deriving DecidableEq

/-- A sync operation as the client engine sees it. -/
structure CSyncOperation where
  id : String
  table : String
  operation : OpKind
  data : CPayload
  timestamp : Int
  clientId : String
  version : Int
  status : String := "pending"
deriving DecidableEq

/-- A conflict queued on the client
(`result.conflicts` appended by the push phase). -/
structure CConflict where
  operation : CSyncOperation
  serverData : CPayload
  clientData : CPayload
deriving DecidableEq

/-- Client conflict resolution strategies (SyncConfig.conflictResolution on
the client; default last-write-wins). -/
inductive CStrategy where
  | clientWins
  | serverWins
  | lastWriteWins
  | manual
deriving DecidableEq

/-- The client-visible state touched by SyncEngine.resolveConflicts: the
embedded store (table name to records), the durable operation queue, and the
in-memory conflicts list. -/
structure ClientSyncState where
  localStore : List (String × List CPayload)
  queue : List CSyncOperation
  conflicts : List CConflict
deriving DecidableEq

/-- `local.adapter.update(table, id, data)` with upsert semantics: replace
the records with that id, or append the record when none exists (the table
entry is created on demand). -/
def localUpdate : List (String × List CPayload) → String → String →
    CPayload → List (String × List CPayload)
  | [], t, _, data => [(t, [data])]
  | p :: rest, t, rid, data =>
      if p.1 == t then
        (p.1, if p.2.any (fun q => q.id == rid) then
                p.2.map (fun q => if q.id == rid then data else q)
              else p.2 ++ [data]) :: rest
      else p :: localUpdate rest t rid data

/-- The per-conflict `switch` of SyncEngine.resolveConflicts: which resolved
operation the strategy picks; `manual` defers to `remote.resolve` and picks
nothing when that callback is unavailable. -/
def resolveOne (strategy : CStrategy)
    (resolveFn : Option (CConflict → CSyncOperation)) (c : CConflict) :
    Option CSyncOperation :=
  match strategy with
  | CStrategy.clientWins => some c.operation
  | CStrategy.serverWins => some { c.operation with data := c.serverData }
  | CStrategy.lastWriteWins =>
      let serverTime := c.serverData.updatedAt.getD 0
      let clientTime := c.clientData.updatedAt.getD 0
      some (if serverTime > clientTime then
              { c.operation with data := c.serverData }
            else c.operation)
  | CStrategy.manual =>
      match resolveFn with
      | some f => some (f c)
      | none => none

/-- Applying one resolved operation: write its data to the client store at
`data.id` and remove the original client operation id from the durable
queue. -/
def applyResolved (st : ClientSyncState) (resolved : CSyncOperation)
    (originalId : String) : ClientSyncState :=
  { st with
    localStore := localUpdate st.localStore resolved.table resolved.data.id
      resolved.data,
    queue := st.queue.filter (fun q => q.id != originalId) }

/-- SyncEngine.resolveConflicts (src/pkg/client/sync.svelte.ts): walk the
queued conflicts in order, apply the resolved operation when the strategy
produced one (conflicts whose strategy picked nothing are skipped), and
finally set `this.conflicts = []`. -/
def resolveConflicts (strategy : CStrategy)
    (resolveFn : Option (CConflict → CSyncOperation))
    (st : ClientSyncState) : ClientSyncState :=
  let walked := st.conflicts.foldl (fun acc c =>
    match resolveOne strategy resolveFn c with
    | some resolved => applyResolved acc resolved c.operation.id
    | none => acc) st
  { walked with conflicts := [] }

/-! Helper lemmas about the embedding. -/

/-- One push step never touches the success flag. -/
theorem pushStep_success (cfg : SyncConfig) (userId : String)
    (acc : ServerState × SyncResult) (op : SyncOperation) :
    ((pushStep cfg userId acc op).2).success = acc.2.success := by
  cases h : (applyOp cfg userId acc.1 op).2 <;> simp [pushStep, h]

/-- Folding push steps never touches the success flag. -/
theorem foldl_pushStep_success (cfg : SyncConfig) (userId : String)
    (ops : List SyncOperation) (acc : ServerState × SyncResult) :
    ((ops.foldl (pushStep cfg userId) acc).2).success = acc.2.success := by
  induction ops generalizing acc with
  | nil => rfl
  | cons op rest ih =>
      rw [List.foldl_cons, ih, pushStep_success]

/-- Membership in a stable timestamp insertion. -/
theorem mem_insertByTimestamp (a x : SyncOperation)
    (l : List SyncOperation) :
    a ∈ insertByTimestamp x l ↔ a = x ∨ a ∈ l := by
  induction l with
  | nil => simp [insertByTimestamp]
  | cons b rest ih =>
      by_cases h : x.timestamp < b.timestamp
      · simp [insertByTimestamp, h]
      · simp [insertByTimestamp, h, ih]
        tauto

/-- Sorting by timestamp preserves membership. -/
theorem mem_sortByTimestamp (a : SyncOperation) (l : List SyncOperation) :
    a ∈ sortByTimestamp l ↔ a ∈ l := by
  induction l with
  | nil => rfl
  | cons b rest ih =>
      simp [sortByTimestamp, mem_insertByTimestamp, ih]

/-- Operations the pull of one table returns are built by mkPullOp from a
matching row within the batch limit. -/
theorem mem_pullTable (st : ServerState) (cfg : SyncConfig) (lastSync : Int)
    (clientId userId : String) (entry : String × SyncTableConfig)
    (op : SyncOperation) (h : op ∈ pullTable st cfg lastSync clientId userId entry) :
    ∃ r, r ∈ (matchingRows st entry.2 lastSync clientId userId).take
        (effectiveLimit cfg.batchSize) ∧ op = mkPullOp entry.1 entry.2 r := by
  unfold pullTable at h
  rcases List.mem_map.mp h with ⟨r, hr, hop⟩
  exact ⟨r, hr, hop.symm⟩

/-- Rows selected by matchingRows pass the client filter. -/
theorem matchingRows_clientFilter (st : ServerState) (tc : SyncTableConfig)
    (lastSync : Int) (clientId userId : String) (r : Row)
    (h : r ∈ matchingRows st tc lastSync clientId userId) :
    clientFilter clientId r = true := by
  unfold matchingRows at h
  have := (List.mem_filter.mp h).2
  simp only [Bool.and_eq_true] at this
  exact this.1.2

/-! Concrete fixtures used by witnesses and counterexamples. -/

/-- A todos table with no row-level filter (no `where` in the schema). -/
def tcPlain : SyncTableConfig := { table := "todos" }

/-- Server config exposing only the plain todos table. -/
def cfgPlain : SyncConfig := { tables := [("todos", tcPlain)] }

/-- An ownership row filter: `where: (userId) => sql(user_id = userId)`. -/
def wOwner : String → Row → Bool := fun userId r => r.userId == userId

/-- A todos table protected by the ownership filter. -/
def tcWhere : SyncTableConfig := { table := "todos", whereClause := some wOwner }

/-- Server config exposing the ownership-filtered todos table. -/
def cfgWhere : SyncConfig := { tables := [("todos", tcWhere)] }

/-- A server with an empty todos table, an empty log and no client state. -/
def st0 : ServerState := { store := [("todos", [])], log := [], clients := [] }

/-- Claim C10: every push call that completes returns a result whose
success field is true, whatever the batch produced per operation: success
is hard-coded by `return { success: true, synced, conflicts, errors }` and
never reflects per-operation errors or conflicts. -/
theorem c10_push_success_always (cfg : SyncConfig)
    (operations : List SyncOperation) (userId : String) (now : Int)
    (st : ServerState) :
    (push cfg operations userId now st).2.success = true := by
  have h := foldl_pushStep_success cfg userId operations
    (st, { success := true, synced := [], conflicts := [], errors := [] })
  simpa [push] using h

/-- Claim C7 counterexample. One conflict is queued, the strategy is
`manual` and `remote.resolve` is unavailable: after the resolution pass the
conflicts list is empty (`this.conflicts = []` runs unconditionally), so
the conflict does NOT remain in the engine conflicts list as the claim
states, even though the original operation does stay in the durable
queue. -/
theorem c7_counterexample :
    ((resolveConflicts CStrategy.manual none
        { localStore := [("todos", [])],
          queue := [{ id := "op-7", table := "todos",
                      operation := OpKind.update,
                      data := { id := "todo-7" }, timestamp := 1,
                      clientId := "c1", version := 2 }],
          conflicts := [{ operation := { id := "op-7", table := "todos",
                                         operation := OpKind.update,
                                         data := { id := "todo-7" },
                                         timestamp := 1, clientId := "c1",
                                         version := 2 },
                          serverData := { id := "todo-7" },
                          clientData := { id := "todo-7" } }] }).conflicts
      = [])
    ∧ ((resolveConflicts CStrategy.manual none
        { localStore := [("todos", [])],
          queue := [{ id := "op-7", table := "todos",
                      operation := OpKind.update,
                      data := { id := "todo-7" }, timestamp := 1,
                      clientId := "c1", version := 2 }],
          conflicts := [{ operation := { id := "op-7", table := "todos",
                                         operation := OpKind.update,
                                         data := { id := "todo-7" },
                                         timestamp := 1, clientId := "c1",
                                         version := 2 },
                          serverData := { id := "todo-7" },
                          clientData := { id := "todo-7" } }] }).queue).length
      = 1 := by
  constructor
  · rfl
  · rfl

/-- Claim C7 (amended): under the manual strategy with `remote.resolve`
unavailable, the resolution pass leaves the durable queue and the client
store untouched, but it does NOT leave the conflict pending in the engine
conflicts list: the list is cleared unconditionally at the end of the
pass. -/
theorem c7_manual_left_queued (st : ClientSyncState) :
    resolveConflicts CStrategy.manual none st = { st with conflicts := [] } := by
  have hfold : ∀ (l : List CConflict) (acc : ClientSyncState),
      l.foldl (fun acc c =>
        match resolveOne CStrategy.manual none c with
        | some resolved => applyResolved acc resolved c.operation.id
        | none => acc) acc = acc := by
    intro l
    induction l with
    | nil => intro acc; rfl
    | cons c rest ih =>
        intro acc
        rw [List.foldl_cons]
        exact ih acc
  unfold resolveConflicts
  rw [hfold]

/-- The reconnect configuration of the quoted schedule: base 100 ms,
cap 1600 ms, 5 attempts. -/
def cfg100 : RCConfig :=
  { reconnectInterval := 100, maxReconnectInterval := 1600,
    maxReconnectAttempts := 5 }

/-- A freshly failing realtime client: no reconnect attempt made yet. -/
def rc0 : RCState :=
  { reconnectAttempts := 0, status := RCStatus.connecting,
    hasReconnectTimer := false }

/-- Claim C8: while attempts remain, the k-th reconnect is scheduled after
min(reconnect_interval * 2^k, max_reconnect_interval); with base 100, cap
1600 and 5 attempts the six successive failures produce the delay schedule
100, 200, 400, 800, 1600 followed by the transition to fallback, after
which no reconnect timer is armed (state changes again only through
reconnect() or enable(), which restart connect explicitly). -/
theorem c8_backoff_schedule :
    (∀ (cfg : RCConfig) (st : RCState),
      st.reconnectAttempts < cfg.maxReconnectAttempts →
      handleError cfg st =
        ({ reconnectAttempts := st.reconnectAttempts + 1,
           status := RCStatus.connecting, hasReconnectTimer := true },
         RCAction.scheduleReconnect
           (min (cfg.reconnectInterval * 2 ^ st.reconnectAttempts)
             cfg.maxReconnectInterval)))
    ∧ (runFailures cfg100 rc0 6).2 =
        [RCAction.scheduleReconnect 100, RCAction.scheduleReconnect 200,
         RCAction.scheduleReconnect 400, RCAction.scheduleReconnect 800,
         RCAction.scheduleReconnect 1600, RCAction.fallbackToPolling]
    ∧ (runFailures cfg100 rc0 6).1.status = RCStatus.fallback
    ∧ (runFailures cfg100 rc0 6).1.hasReconnectTimer = false
    ∧ (∀ (cfg : RCConfig) (st : RCState),
      cfg.maxReconnectAttempts ≤ st.reconnectAttempts →
      (handleError cfg st).2 = RCAction.fallbackToPolling
        ∧ (handleError cfg st).1.status = RCStatus.fallback
        ∧ (handleError cfg st).1.hasReconnectTimer = false) := by
  refine ⟨?_, by decide, by decide, by decide, ?_⟩
  · intro cfg st h
    simp [handleError, h, reconnectDelay]
  · intro cfg st h
    have hnot : ¬ st.reconnectAttempts < cfg.maxReconnectAttempts :=
      not_lt.mpr h
    simp [handleError, hnot]

/-- Witness for claim C8 at the concrete configuration: the first failure
schedules a 100 ms reconnect. -/
theorem c8_witness :
    rc0.reconnectAttempts < cfg100.maxReconnectAttempts
    ∧ handleError cfg100 rc0 =
        ({ reconnectAttempts := 1, status := RCStatus.connecting,
           hasReconnectTimer := true }, RCAction.scheduleReconnect 100) := by
  refine ⟨by decide, ?_⟩
  have h := c8_backoff_schedule.1 cfg100 rc0 (by decide)
  rw [h]
  decide

/-- A row last written by another client. -/
def rowO : Row :=
  { id := "todo-1", userId := "u1", fields := [], _version := 1,
    _updatedAt := 10, _clientId := some "other", _isDeleted := false }

/-- A server holding only that row. -/
def stP : ServerState := { store := [("todos", [rowO])], log := [], clients := [] }

/-- Claim C5: pull never echoes the calling client. Every operation in a
pull result either carries a clientId different from the caller or carries
the literal "server", which is what the _clientId fallback produces
exactly for the rows whose _clientId is NULL (or empty, NULL being the case
the source stores); and the pull row filter
`_clientId != clientId OR _clientId IS NULL` never excludes a row whose
_clientId is NULL. -/
theorem c5_pull_excludes_caller (st : ServerState) (cfg : SyncConfig)
    (lastSync : Int) (clientId userId : String) (now : Int) :
    (∀ op ∈ (pull st cfg lastSync clientId userId now).2,
        op.clientId ≠ clientId ∨ op.clientId = "server")
    ∧ (∀ r : Row, r._clientId = none → clientFilter clientId r = true) := by
  constructor
  · intro op hop
    simp only [pull] at hop
    rw [mem_sortByTimestamp] at hop
    rcases List.mem_flatten.mp hop with ⟨l, hl, hop2⟩
    rcases List.mem_map.mp hl with ⟨entry, _, rfl⟩
    rcases mem_pullTable st cfg lastSync clientId userId entry op hop2
      with ⟨r, hr, rfl⟩
    have hcf : clientFilter clientId r = true :=
      matchingRows_clientFilter st entry.2 lastSync clientId userId r
        (List.mem_of_mem_take hr)
    have hcl : (mkPullOp entry.1 entry.2 r).clientId = orServer r._clientId :=
      rfl
    rw [hcl]
    cases hc : r._clientId with
    | none => right; rfl
    | some c =>
        have hcf2 : c ≠ clientId := by
          unfold clientFilter at hcf
          rw [hc] at hcf
          simpa using hcf
        by_cases hce : c = ""
        · right; simp [orServer, hce]
        · left
          simpa [orServer, hce] using hcf2
  · intro r h
    simp [clientFilter, h]

/-- Witness for claim C5: on a concrete store, the single pulled operation
satisfies the exclusion disjunction. -/
theorem c5_witness :
    (mkPullOp "todos" tcPlain rowO).clientId ≠ "c1"
    ∨ (mkPullOp "todos" tcPlain rowO).clientId = "server" :=
  (c5_pull_excludes_caller stP cfgPlain 0 "c1" "u1" 5).1
    (mkPullOp "todos" tcPlain rowO) (by decide)

/-- Claim C9: each configured table contributes at most
`batchSize || 100` operations to a pull (100 when batchSize is unset);
every contributed operation is built from one of the first
`effectiveLimit` matching rows, so a row whose _updatedAt exceeds `since`
but which lies beyond that per-table limit is silently left out of the
result; and everything in the merged pull result comes from some
configured table via that limited per-table query. -/
theorem c9_pull_batch_limit (st : ServerState) (cfg : SyncConfig)
    (lastSync : Int) (clientId userId : String) (now : Int)
    (name : String) (tc : SyncTableConfig) :
    ((pullTable st cfg lastSync clientId userId (name, tc)).length
        ≤ effectiveLimit cfg.batchSize)
    ∧ (cfg.batchSize = none → effectiveLimit cfg.batchSize = 100)
    ∧ (∀ op ∈ pullTable st cfg lastSync clientId userId (name, tc),
        ∃ r, r ∈ (matchingRows st tc lastSync clientId userId).take
            (effectiveLimit cfg.batchSize) ∧ op = mkPullOp name tc r)
    ∧ (∀ op ∈ (pull st cfg lastSync clientId userId now).2,
        ∃ entry ∈ cfg.tables,
          op ∈ pullTable st cfg lastSync clientId userId entry) := by
  refine ⟨?_, ?_, ?_, ?_⟩
  · unfold pullTable
    rw [List.length_map, List.length_take]
    exact min_le_left _ _
  · intro h
    rw [h]
    rfl
  · intro op hop
    exact mem_pullTable st cfg lastSync clientId userId (name, tc) op hop
  · intro op hop
    simp only [pull] at hop
    rw [mem_sortByTimestamp] at hop
    rcases List.mem_flatten.mp hop with ⟨l, hl, hop2⟩
    rcases List.mem_map.mp hl with ⟨entry, he, rfl⟩
    exact ⟨entry, he, hop2⟩

/-- Witness for claim C9 on the concrete store: the unset batchSize
defaults to 100 and the single pulled operation is accounted for by a row
within the limit. -/
theorem c9_witness :
    cfgPlain.batchSize = none
    ∧ effectiveLimit cfgPlain.batchSize = 100
    ∧ ∃ r, r ∈ (matchingRows stP tcPlain 0 "c1" "u1").take
          (effectiveLimit cfgPlain.batchSize)
        ∧ mkPullOp "todos" tcPlain rowO = mkPullOp "todos" tcPlain r := by
  refine ⟨rfl, ?_, ?_⟩
  · exact (c9_pull_batch_limit stP cfgPlain 0 "c1" "u1" 5 "todos" tcPlain).2.1
      rfl
  · exact (c9_pull_batch_limit stP cfgPlain 0 "c1" "u1" 5 "todos"
      tcPlain).2.2.1 (mkPullOp "todos" tcPlain rowO) (by decide)

/-- An operation on table "a". -/
def opA : SyncOperation :=
  { id := "op-a", table := "a", operation := OpKind.insert,
    data := { id := "ra" }, timestamp := 1, clientId := "c1", version := 1 }

/-- An operation on table "b" from the same batch. -/
def opB : SyncOperation :=
  { id := "op-b", table := "b", operation := OpKind.insert,
    data := { id := "rb" }, timestamp := 2, clientId := "c1", version := 1 }

/-- A peer connection subscribed to table "a" only. -/
def connA : RealtimeConnection :=
  { id := "conn-2", userId := "u1", clientId := "c2", tables := ["a"],
    createdAt := 0, lastActivity := 0 }

/-- Claim C6 counterexample. A two-table batch is broadcast to a connection
subscribed to table "a" only: the connection receives exactly the filtered
operations, but the emitted data.tables is the distinct table list of the
WHOLE batch (["a", "b"]) and not the distinct tables of the filtered
operations (["a"]), because broadcast computes `tables` once from
`operations` before the per-connection loop. -/
theorem c6_counterexample :
    broadcast true [connA] [opA, opB] none =
      [("conn-2", { operations := [opA], tables := ["a", "b"] })]
    ∧ dedupFirst ([opA].map (fun op => op.table)) = ["a"]
    ∧ (["a", "b"] : List String) ≠ ["a"] := by
  refine ⟨by decide, by decide, by decide⟩

/-- Claim C6 (amended): on an enabled server with a non-empty batch,
broadcast runs the per-connection emitter over the registered connections;
the connection whose clientId equals the (non-empty) excluded id receives
nothing; a connection with a non-empty subscription receives exactly the
operations whose table lies in its subscription and receives nothing when
that filtered list is empty; and every emitted event carries data.tables
equal to the distinct table names of the WHOLE input batch (not of the
filtered operations). -/
theorem c6_broadcast_filtering (conns : List RealtimeConnection)
    (ops : List SyncOperation) (e : String) (c : RealtimeConnection)
    (hops : ops.isEmpty = false) (he : e ≠ "") :
    (broadcast true conns ops (some e) =
      conns.filterMap
        (emitFor ops (dedupFirst (ops.map (fun op => op.table))) (some e)))
    ∧ (c.clientId = e →
        emitFor ops (dedupFirst (ops.map (fun op => op.table))) (some e) c
          = none)
    ∧ (c.clientId ≠ e → c.tables ≠ [] →
        emitFor ops (dedupFirst (ops.map (fun op => op.table))) (some e) c
          = (if (ops.filter (fun op => c.tables.contains op.table)).isEmpty
             then none
             else some (c.id,
               { operations := ops.filter (fun op => c.tables.contains op.table),
                 tables := dedupFirst (ops.map (fun op => op.table)) }))) := by
  refine ⟨?_, ?_, ?_⟩
  · simp [broadcast, hops]
  · intro hce
    have h1 : (e != "") = true := by simpa using he
    have h2 : (c.clientId == e) = true := by simpa using hce
    simp [emitFor, h1, h2]
  · intro hne hct
    have h2 : (c.clientId == e) = false := by simpa using hne
    have h3 : c.tables.isEmpty = false := by
      simpa [List.isEmpty_iff] using hct
    simp [emitFor, h2, h3]

/-- Witness for claim C6: the excluded connection receives no event. -/
theorem c6_witness :
    emitFor [opA] (dedupFirst ([opA].map (fun op => op.table))) (some "c2")
      connA = none :=
  (c6_broadcast_filtering [connA] [opA] "c2" connA (by decide)
    (by decide)).2.1 rfl


/-- Inserting appends to the addressed table. -/
theorem tableRows_insertRow (s : StoreMap) (t : String) (row : Row) :
    tableRows (insertRow s t row) t = tableRows s t ++ [row] := by
  induction s with
  | nil => simp [insertRow, tableRows]
  | cons p rest ih =>
      by_cases hp : p.1 = t
      · simp [insertRow, tableRows, hp]
      · simp [insertRow, tableRows, hp, ih]

/-- Updating maps the row setter over the addressed table. -/
theorem tableRows_updateRows (s : StoreMap) (t rid : String) (f : Row → Row) :
    tableRows (updateRows s t rid f) t =
      (tableRows s t).map (fun r => if r.id == rid then f r else r) := by
  induction s with
  | nil => rfl
  | cons p rest ih =>
      by_cases hp : p.1 = t
      · simp [updateRows, tableRows, hp]
      · simp [updateRows, tableRows, hp, ih]

/-- An update whose row id matches nothing in the addressed table leaves
the whole store untouched. -/
theorem updateRows_not_found (s : StoreMap) (t rid : String) (f : Row → Row)
    (hfind : findRow s t rid = none) : updateRows s t rid f = s := by
  induction s with
  | nil => rfl
  | cons p rest ih =>
      obtain ⟨pn, rows⟩ := p
      by_cases hp : pn = t
      · subst hp
        have hrows : ∀ r ∈ rows, ¬ r.id = rid := by
          intro r hr
          have hnone : List.find? (fun r => r.id == rid) rows = none := by
            simpa [findRow, tableRows] using hfind
          have := List.find?_eq_none.mp hnone r hr
          simpa using this
        have hmap : rows.map (fun r => if r.id = rid then f r else r)
            = rows := by
          calc rows.map (fun r => if r.id = rid then f r else r)
              = rows.map id := List.map_congr_left (by
                intro r hr
                simp [hrows r hr])
            _ = rows := List.map_id rows
        simp [updateRows, hmap]
      · have hrest : findRow rest t rid = none := by
          simpa [findRow, tableRows, hp] using hfind
        simp [updateRows, hp, ih hrest]

/-- Applying the same row setter twice is the same as applying it once,
provided the setter is idempotent and id-preserving. -/
theorem updateRows_idem (s : StoreMap) (t rid : String) (f : Row → Row)
    (hf : ∀ r, f (f r) = f r) (hid : ∀ r, (f r).id = r.id) :
    updateRows (updateRows s t rid f) t rid f = updateRows s t rid f := by
  induction s with
  | nil => rfl
  | cons p rest ih =>
      obtain ⟨pn, rows⟩ := p
      by_cases hp : pn = t
      · subst hp
        simp only [updateRows, beq_self_eq_true, if_true]
        simp
        intro a _ hcond
        by_cases hr : a.id = rid
        · simp [hr, hf]
        · exact absurd (by simpa [hr] using hcond) hr
      · simp [updateRows, hp, ih]

/-- For an insert, checkAccess always allows, whatever the `where` filter
and whatever user id the payload carries. -/
theorem checkAccess_insert (tc : SyncTableConfig) (userId : String)
    (s : StoreMap) (op : SyncOperation) (h : op.operation = OpKind.insert) :
    checkAccess tc userId s op = true := by
  unfold checkAccess
  cases hw : tc.whereClause with
  | none => rfl
  | some w => simp [h]

/-- The push result of a one-operation batch, by outcome of the single
step. -/
theorem push_single (cfg : SyncConfig) (userId : String) (now : Int)
    (st : ServerState) (op : SyncOperation) :
    (push cfg [op] userId now st).2 =
      (match (applyOp cfg userId st op).2 with
       | StepOutcome.synced =>
           { success := true, synced := [op.id], conflicts := [], errors := [] }
       | StepOutcome.conflicted c =>
           { success := true, synced := [], conflicts := [c], errors := [] }
       | StepOutcome.errored e =>
           { success := true, synced := [], conflicts := [], errors := [e] }) := by
  cases h : (applyOp cfg userId st op).2 <;> simp [push, pushStep, h]

/-- The final state of a one-operation push keeps the store produced by the
single step (only the clientState table is touched afterwards). -/
theorem push_single_store (cfg : SyncConfig) (userId : String) (now : Int)
    (st : ServerState) (op : SyncOperation) :
    (push cfg [op] userId now st).1.store = (applyOp cfg userId st op).1.store := by
  cases h : (applyOp cfg userId st op).2 <;> simp [push, pushStep, h]

/-- A fresh insert operation carrying client timestamp 5. -/
def opIns1 : SyncOperation :=
  { id := "op-1", table := "todos", operation := OpKind.insert,
    data := { id := "todo-1", userId := some "user-1",
              fields := [("text", "T")] },
    timestamp := 5, clientId := "c1", version := 1 }

/-- Claim C1 counterexample. Pushing a fresh insert with op.timestamp = 5
while the server clock reads 1000: the operation is synced, but the stored
row carries _updatedAt = 5 (`new Date(op.timestamp)`), not the server
current time, refuting the claim that _updated_at equals the server
clock. -/
theorem c1_counterexample :
    ((findRow (push cfgPlain [opIns1] "user-1" 1000 st0).1.store "todos"
        "todo-1").map (fun r => r._updatedAt)) = some 5
    ∧ ((5 : Int) = 1000 → False)
    ∧ (push cfgPlain [opIns1] "user-1" 1000 st0).2.synced = ["op-1"] := by
  refine ⟨by decide, by decide, by decide⟩

/-- Claim C1 (amended): for an insert on a configured table, processed by
the per-operation body of push at any server state: when a row with
data.id already exists (tombstoned or not), a Conflict carrying the
existing row as serverData and op.data as clientData is recorded, the
state is unchanged and the op is not synced; otherwise a new row is
written with _version = 1, _updatedAt = op.timestamp (the operation
timestamp, not the server clock), _clientId = op.clientId and user_id
stamped from the authenticated principal, and op.id is synced. -/
theorem c1_insert_behavior (cfg : SyncConfig) (userId : String)
    (st : ServerState) (op : SyncOperation) (tc : SyncTableConfig) (now : Int)
    (h1 : (cfg.tables.find? (fun p => p.1 == op.table)).map (fun p => p.2)
        = some tc)
    (h2 : op.operation = OpKind.insert) :
    (∀ existing, findRow st.store tc.table op.data.id = some existing →
      applyOp cfg userId st op
        = (st, StepOutcome.conflicted ⟨op, existing, op.data⟩)
      ∧ (push cfg [op] userId now st).2.synced = []
      ∧ (push cfg [op] userId now st).2.conflicts = [⟨op, existing, op.data⟩])
    ∧ (findRow st.store tc.table op.data.id = none →
      applyOp cfg userId st op =
        ({ st with
           store := insertRow st.store tc.table
             { id := op.data.id, userId := userId, fields := op.data.fields,
               _version := 1, _updatedAt := op.timestamp,
               _clientId := some op.clientId, _isDeleted := false },
           log := st.log ++ [logEntryOf op userId] }, StepOutcome.synced)
      ∧ (push cfg [op] userId now st).2.synced = [op.id]) := by
  have hacc : checkAccess tc userId st.store op = true :=
    checkAccess_insert tc userId st.store op h2
  constructor
  · intro existing hex
    have happly : applyOp cfg userId st op
        = (st, StepOutcome.conflicted ⟨op, existing, op.data⟩) := by
      simp [applyOp, h1, h2, hacc, hex]
    have hout : (applyOp cfg userId st op).2
        = StepOutcome.conflicted ⟨op, existing, op.data⟩ := by
      rw [happly]
    refine ⟨happly, ?_, ?_⟩
    · rw [push_single, hout]
    · rw [push_single, hout]
  · intro hnone
    have happly : applyOp cfg userId st op =
        ({ st with
           store := insertRow st.store tc.table
             { id := op.data.id, userId := userId, fields := op.data.fields,
               _version := 1, _updatedAt := op.timestamp,
               _clientId := some op.clientId, _isDeleted := false },
           log := st.log ++ [logEntryOf op userId] }, StepOutcome.synced) := by
      simp [applyOp, h1, h2, hacc, hnone]
    have hout : (applyOp cfg userId st op).2 = StepOutcome.synced := by
      rw [happly]
    refine ⟨happly, ?_⟩
    rw [push_single, hout]

/-- Witness for claim C1: the concrete fresh insert is applied with
version 1 and the operation timestamp. -/
theorem c1_witness :
    (applyOp cfgPlain "user-1" st0 opIns1).2 = StepOutcome.synced := by
  have h := ((c1_insert_behavior cfgPlain "user-1" st0 opIns1 tcPlain 1000
    rfl rfl).2 rfl).1
  rw [h]

/-- An insert whose payload carries a user id that differs from the
authenticated principal. -/
def opIns3 : SyncOperation :=
  { id := "op-3", table := "todos", operation := OpKind.insert,
    data := { id := "todo-3", userId := some "someone-else" },
    timestamp := 7, clientId := "c1", version := 1 }

/-- Claim C3 counterexample. The todos table DOES define a `where` filter
and the pushed insert carries user_id "someone-else" while the
authenticated principal is "user-1": the claim says the operation is
rejected and not applied, but checkAccess allows every insert
(`result.length > 0 || op.operation === insert`), so the op is synced
with no error and the row is written (with the carried user id overridden
by the authenticated one). -/
theorem c3_counterexample :
    (push cfgWhere [opIns3] "user-1" 0 st0).2.synced = ["op-3"]
    ∧ (push cfgWhere [opIns3] "user-1" 0 st0).2.errors = []
    ∧ ((findRow (push cfgWhere [opIns3] "user-1" 0 st0).1.store "todos"
        "todo-3").map (fun r => r.userId)) = some "user-1" := by
  refine ⟨by decide, by decide, by decide⟩

/-- Claim C3 (amended): the access check never rejects an insert, with or
without a `where` filter and whatever user_id the operation carries; a
fresh insert is applied and the stored row carries the authenticated
user_id (the server overwrites any user id in the payload). The
always-allow half of the original claim (no `where` filter) is the
no-filter instance of this statement. -/
theorem c3_insert_always_allowed (cfg : SyncConfig) (userId : String)
    (st : ServerState) (op : SyncOperation) (tc : SyncTableConfig)
    (h1 : (cfg.tables.find? (fun p => p.1 == op.table)).map (fun p => p.2)
        = some tc)
    (h2 : op.operation = OpKind.insert) :
    checkAccess tc userId st.store op = true
    ∧ (findRow st.store tc.table op.data.id = none →
        (applyOp cfg userId st op).2 = StepOutcome.synced
        ∧ findRow (applyOp cfg userId st op).1.store tc.table op.data.id
            = some { id := op.data.id, userId := userId,
                     fields := op.data.fields, _version := 1,
                     _updatedAt := op.timestamp,
                     _clientId := some op.clientId, _isDeleted := false }) := by
  have hacc : checkAccess tc userId st.store op = true :=
    checkAccess_insert tc userId st.store op h2
  refine ⟨hacc, ?_⟩
  intro hnone
  have happly : applyOp cfg userId st op =
      ({ st with
         store := insertRow st.store tc.table
           { id := op.data.id, userId := userId, fields := op.data.fields,
             _version := 1, _updatedAt := op.timestamp,
             _clientId := some op.clientId, _isDeleted := false },
         log := st.log ++ [logEntryOf op userId] }, StepOutcome.synced) := by
    simp [applyOp, h1, h2, hacc, hnone]
  constructor
  · rw [happly]
  · rw [happly]
    unfold findRow
    rw [tableRows_insertRow]
    rw [List.find?_append]
    have hold : List.find? (fun r => r.id == op.data.id)
        (tableRows st.store tc.table) = none := hnone
    rw [hold]
    simp

/-- Witness for claim C3: the mismatched insert passes the access check and
is applied on a concrete where-filtered table. -/
theorem c3_witness :
    checkAccess tcWhere "user-1" st0.store opIns3 = true
    ∧ (applyOp cfgWhere "user-1" st0 opIns3).2 = StepOutcome.synced := by
  refine ⟨(c3_insert_always_allowed cfgWhere "user-1" st0 opIns3 tcWhere
    rfl rfl).1, ?_⟩
  exact ((c3_insert_always_allowed cfgWhere "user-1" st0 opIns3 tcWhere
    rfl rfl).2 rfl).1

/-- A delete aimed at a record the server never stored. -/
def opDel4 : SyncOperation :=
  { id := "op-4", table := "todos", operation := OpKind.delete,
    data := { id := "todo-9" }, timestamp := 9, clientId := "c1",
    version := 1 }

/-- Claim C4 counterexample. On a table WITH a `where` filter, a delete
whose target row does not exist is rejected with an Access denied error
(checkAccess finds no row matching the filter and the op is not an
insert): the op id is not synced, refuting the unconditional claim that a
delete of a missing row always succeeds. -/
theorem c4_counterexample :
    (push cfgWhere [opDel4] "user-1" 0 st0).2.errors
      = [{ id := "op-4", error := "Access denied" }]
    ∧ (push cfgWhere [opDel4] "user-1" 0 st0).2.synced = [] := by
  refine ⟨by decide, by decide⟩

/-- Claim C4 (amended): on a table whose schema has no `where` filter (so
the access check passes), deleting is idempotent: both the first and a
repeated identical delete are synced with no error or conflict, the second
application leaves the store exactly as the first, a delete whose target
row does not exist changes nothing, and after a delete every row with the
target id is tombstoned (_is_deleted = true, _updated_at = op.timestamp)
and retained (the table keeps its length). With a `where` filter the
missing-row case is instead rejected as Access denied, as the
counterexample shows. -/
theorem c4_delete_idempotent (cfg : SyncConfig) (userId : String)
    (st : ServerState) (op : SyncOperation) (tc : SyncTableConfig)
    (h1 : (cfg.tables.find? (fun p => p.1 == op.table)).map (fun p => p.2)
        = some tc)
    (h2 : op.operation = OpKind.delete)
    (h3 : tc.whereClause = none) :
    (applyOp cfg userId st op).2 = StepOutcome.synced
    ∧ (applyOp cfg userId (applyOp cfg userId st op).1 op).2
        = StepOutcome.synced
    ∧ (applyOp cfg userId (applyOp cfg userId st op).1 op).1.store
        = (applyOp cfg userId st op).1.store
    ∧ (findRow st.store tc.table op.data.id = none →
        (applyOp cfg userId st op).1.store = st.store)
    ∧ (∀ r ∈ tableRows (applyOp cfg userId st op).1.store tc.table,
        r.id = op.data.id →
          r._isDeleted = true ∧ r._updatedAt = op.timestamp)
    ∧ (tableRows (applyOp cfg userId st op).1.store tc.table).length
        = (tableRows st.store tc.table).length := by
  have hacc : ∀ s : StoreMap, checkAccess tc userId s op = true := by
    intro s
    simp [checkAccess, h3]
  have happly : ∀ s : ServerState, applyOp cfg userId s op =
      ({ s with
         store := updateRows s.store tc.table op.data.id
           (fun r => { r with _isDeleted := true,
                              _updatedAt := op.timestamp }),
         log := s.log ++ [logEntryOf op userId] }, StepOutcome.synced) := by
    intro s
    simp [applyOp, h1, h2, hacc s.store]
  refine ⟨?_, ?_, ?_, ?_, ?_, ?_⟩
  · rw [happly st]
  · rw [happly, happly]
  · rw [happly, happly]
    exact updateRows_idem st.store tc.table op.data.id _
      (fun r => rfl) (fun r => rfl)
  · intro hfind
    rw [happly st]
    exact updateRows_not_found st.store tc.table op.data.id _ hfind
  · intro r hr hrid
    rw [happly st] at hr
    simp only [tableRows_updateRows] at hr
    rcases List.mem_map.mp hr with ⟨r0, _, hr0⟩
    by_cases hcase : r0.id = op.data.id
    · rw [← hr0]
      simp [hcase]
    · rw [← hr0] at hrid
      simp [hcase] at hrid
  · rw [happly st]
    simp only [tableRows_updateRows]
    exact List.length_map _ _

/-- Witness for claim C4: deleting the missing record "todo-9" twice on
the plain table is synced both times and leaves the empty store alone. -/
theorem c4_witness :
    (applyOp cfgPlain "user-1" st0 opDel4).2 = StepOutcome.synced
    ∧ (applyOp cfgPlain "user-1" st0 opDel4).1.store = st0.store := by
  have h := c4_delete_idempotent cfgPlain "user-1" st0 opDel4 tcPlain
    rfl rfl rfl
  exact ⟨h.1, h.2.2.2.1 rfl⟩

/-- A stored row at version 3, last written at instant 10. -/
def rowC : Row :=
  { id := "todo-1", userId := "u1", fields := [("text", "Server")],
    _version := 3, _updatedAt := 10, _clientId := some "c9",
    _isDeleted := false }

/-- A server holding only that row. -/
def stC : ServerState := { store := [("todos", [rowC])], log := [], clients := [] }

/-- A stale-version update (version 2 against stored version 3) with a
newer client clock (20 > 10). -/
def opU2 : SyncOperation :=
  { id := "op-2", table := "todos", operation := OpKind.update,
    data := { id := "todo-1", fields := [("text", "Client")] },
    timestamp := 20, clientId := "c1", version := 2 }

/-- Claim C2: for an update whose version does not equal the stored
_version + 1, under last-write-wins (configured or defaulted) the update
goes through exactly when op.timestamp is strictly greater than the stored
row _updatedAt: then the op is synced and every row with the target id
ends at _version = stored _version + 1; with equal timestamps a Conflict
carrying the stored row is recorded and the server row is unchanged. -/
theorem c2_lww_version_mismatch (cfg : SyncConfig) (userId : String)
    (st : ServerState) (op : SyncOperation) (tc : SyncTableConfig)
    (current : Row) (now : Int)
    (h1 : (cfg.tables.find? (fun p => p.1 == op.table)).map (fun p => p.2)
        = some tc)
    (h2 : op.operation = OpKind.update)
    (h3 : checkAccess tc userId st.store op = true)
    (h4 : findRow st.store tc.table op.data.id = some current)
    (h5 : current._version ≠ op.version - 1)
    (h6 : tc.conflictResolution.getD Strategy.lastWriteWins
        = Strategy.lastWriteWins) :
    ((applyOp cfg userId st op).2 = StepOutcome.synced
        ↔ op.timestamp > current._updatedAt)
    ∧ (op.timestamp > current._updatedAt →
        (push cfg [op] userId now st).2.synced = [op.id]
        ∧ (∀ r ∈ tableRows (applyOp cfg userId st op).1.store tc.table,
            r.id = op.data.id → r._version = current._version + 1))
    ∧ (op.timestamp = current._updatedAt →
        applyOp cfg userId st op
          = (st, StepOutcome.conflicted ⟨op, current, op.data⟩)
        ∧ (push cfg [op] userId now st).2.conflicts
            = [⟨op, current, op.data⟩]
        ∧ (push cfg [op] userId now st).1.store = st.store) := by
  have hres : op.timestamp > current._updatedAt →
      resolveConflict tc op current = Resolution.resolved := by
    intro hgt
    simp [resolveConflict, h6, hgt]
  have hresc : ¬ op.timestamp > current._updatedAt →
      resolveConflict tc op current = Resolution.conflict := by
    intro hle
    simp [resolveConflict, h6, hle]
  have happly_gt : op.timestamp > current._updatedAt →
      applyOp cfg userId st op =
        ({ st with
           store := updateRows st.store tc.table op.data.id
             (fun r =>
               { r with
                 id := op.data.id,
                 userId := op.data.userId.getD r.userId,
                 fields := mergeFields op.data.fields r.fields,
                 _version := current._version + 1,
                 _updatedAt := op.timestamp,
                 _clientId := some op.clientId }),
           log := st.log ++ [logEntryOf op userId] }, StepOutcome.synced) := by
    intro hgt
    have hcond : ¬ (current._version ≠ op.version - 1
        ∧ resolveConflict tc op current = Resolution.conflict) := by
      rw [hres hgt]
      simp
    simp [applyOp, h1, h2, h3, h4, hcond]
  have happly_le : ¬ op.timestamp > current._updatedAt →
      applyOp cfg userId st op
        = (st, StepOutcome.conflicted ⟨op, current, op.data⟩) := by
    intro hle
    have hcond : current._version ≠ op.version - 1
        ∧ resolveConflict tc op current = Resolution.conflict :=
      ⟨h5, hresc hle⟩
    simp [applyOp, h1, h2, h3, h4, hcond]
  refine ⟨?_, ?_, ?_⟩
  · constructor
    · intro hsy
      by_cases hgt : op.timestamp > current._updatedAt
      · exact hgt
      · rw [happly_le hgt] at hsy
        simp at hsy
    · intro hgt
      rw [happly_gt hgt]
  · intro hgt
    constructor
    · have hout : (applyOp cfg userId st op).2 = StepOutcome.synced := by
        rw [happly_gt hgt]
      rw [push_single, hout]
    · intro r hr hrid
      rw [happly_gt hgt] at hr
      simp only [tableRows_updateRows] at hr
      rcases List.mem_map.mp hr with ⟨r0, _, hr0⟩
      by_cases hcase : r0.id = op.data.id
      · rw [← hr0]
        simp [hcase]
      · rw [← hr0] at hrid
        simp [hcase] at hrid
  · intro heq
    have hle : ¬ op.timestamp > current._updatedAt := by
      rw [heq]
      exact lt_irrefl _
    have hout : (applyOp cfg userId st op).2
        = StepOutcome.conflicted ⟨op, current, op.data⟩ := by
      rw [happly_le hle]
    refine ⟨happly_le hle, ?_, ?_⟩
    · rw [push_single, hout]
    · rw [push_single_store, happly_le hle]

/-- Witness for claim C2: the concrete stale-version update with the newer
client clock is applied under last-write-wins. -/
theorem c2_witness :
    (applyOp cfgPlain "u1" stC opU2).2 = StepOutcome.synced :=
  (c2_lww_version_mismatch cfgPlain "u1" stC opU2 tcPlain rowC 0 rfl rfl
    rfl rfl (by decide) rfl).1.mpr (by decide)
